import Mathlib

/-!
Verification development for the authentication core of
MachineNativeOps (`src/core/new/security/auth.py`).

The Python module defines a `SecurityManager` with:
  * `_hash_password(password)`  — random 32-byte salt, PBKDF2-HMAC-SHA256
    with 100000 iterations, record `salt.hex() + ":" + pwdhash.hex()`;
  * `_verify_password(stored, provided)` — splits on `:` , hex-decodes,
    re-derives and compares, returning `False` on any parse error;
  * `initialize()` — idempotent bootstrap creating a default admin;
  * `authenticate_user(username, password)` — looks up the first active
    user with the username, verifies, mints `token_<32 hex chars>` and
    appends a `user_authenticated` security event on success;
  * `_log_security_event` — appends to the in-memory event list.

The embedding is shallow: the PBKDF2 derivation is an abstract function
parameter `kdf : String → List Nat → Nat → List Nat` (password, salt
bytes, iteration count ↦ digest bytes); randomness (`secrets.token_bytes`,
`secrets.token_hex`) and clock reads (`datetime.now()`) are explicit
oracle arguments.  Bytes are `Nat`s (well-formedness `< 256` stated as a
hypothesis where it matters).  Strings are Lean `String`s; Python slicing
`s[:n]` is modelled character-wise (`pySlice`), and `str.split(':')` is
modelled by `pySplit` on the character list.  `bytes.fromhex` follows the
CPython semantics: ASCII whitespace is skipped between byte pairs, the
two hex digits of a pair must be adjacent, and any other non-hex content
or an odd digit raises `ValueError` (here: `none`).
-/

/-- Lowercase hex digit for a value `< 16`, as produced by `bytes.hex()`. -/
def hexDigit (n : Nat) : Char :=
  if n < 10 then Char.ofNat (48 + n) else Char.ofNat (87 + n)

/-- `bytes.hex()`: two lowercase hex digits per byte. -/
def hexEncode (bs : List Nat) : List Char :=
  bs.flatMap (fun b => [hexDigit (b / 16), hexDigit (b % 16)])

/-- Numeric value of a hex digit character, `none` for a non-hex character. -/
def hexVal (c : Char) : Option Nat :=
  if 48 ≤ c.toNat ∧ c.toNat ≤ 57 then some (c.toNat - 48)
  else if 97 ≤ c.toNat ∧ c.toNat ≤ 102 then some (c.toNat - 87)
  else if 65 ≤ c.toNat ∧ c.toNat ≤ 70 then some (c.toNat - 55)
  else none

/-- The characters CPython's `Py_ISSPACE` accepts; `bytes.fromhex` skips
them between byte pairs. -/
def isAsciiWhitespace (c : Char) : Bool :=
  c = ' ' || c = '\t' || c = '\n' || c = '\x0b' || c = '\x0c' || c = '\r'

/-- `bytes.fromhex`: skips ASCII whitespace, then consumes two adjacent
hex digits per byte (whitespace inside a pair is an error, as in
CPython); fails on a non-hex character or an odd count of digits. -/
def fromhex : List Char → Option (List Nat)
  | [] => some []
  | [c] => if isAsciiWhitespace c then some [] else none
  | c1 :: c2 :: rest =>
      if isAsciiWhitespace c1 then fromhex (c2 :: rest)
      else do
        let h ← hexVal c1
        let l ← hexVal c2
        let r ← fromhex rest
        pure ((16 * h + l) :: r)

/-- Python `str.split(sep)` for a one-character separator: splits at every
occurrence, keeping empty parts (`"a::b".split(":") == ["a","","b"]`). -/
def pySplit (sep : Char) : List Char → List (List Char)
  | [] => [[]]
  | c :: cs =>
      let r := pySplit sep cs
      if c = sep then [] :: r
      else
        match r with
        | [] => [[c]]
        | h :: t => (c :: h) :: t

/-- Python slicing `s[:n]`. -/
def pySlice (s : String) (n : Nat) : String :=
  String.mk (s.toList.take n)

/-- `SecurityManager._hash_password`, with the random salt
(`secrets.token_bytes(32)`) passed in as an oracle argument:
`return salt.hex() + ':' + pwdhash.hex()` with
`pwdhash = hashlib.pbkdf2_hmac('sha256', password, salt, 100000)`. -/
def hash_password (kdf : String → List Nat → Nat → List Nat)
    (password : String) (salt : List Nat) : String :=
  String.mk (hexEncode salt) ++ ":" ++ String.mk (hexEncode (kdf password salt 100000))

/-- `SecurityManager._verify_password`: split the stored record on `:`
(the tuple unpacking `salt_hex, pwdhash_hex = stored.split(':')` raises
unless there are exactly two parts), hex-decode both parts, re-derive and
compare; every `ValueError` path of the source is the `false` branch. -/
def verify_password (kdf : String → List Nat → Nat → List Nat)
    (stored_password provided_password : String) : Bool :=
  match pySplit ':' stored_password.toList with
  | [salt_hex, pwdhash_hex] =>
      match fromhex salt_hex, fromhex pwdhash_hex with
      | some salt, some stored_hash =>
          kdf provided_password salt 100000 == stored_hash
      | _, _ => false
  | _ => false

/-- The `User` dataclass of the source module. `created_at` (a
`datetime`) is modelled as an opaque string. -/
structure User where
  id : String
  username : String
  email : String
  created_at : String
  is_active : Bool := true
  password_hash : String := ""
deriving Repr, DecidableEq

/-- One entry of `SecurityManager.security_events`: a dict with
`timestamp`, `event_type` and a `details` mapping (string-valued in every
event the module produces). -/
structure SecurityEvent where
  timestamp : String
  event_type : String
  details : List (String × String)
deriving Repr, DecidableEq

/-- `SecurityManager.__init__`: `users` is a `Dict[str, User]` keyed by
user id, modelled as an association list in insertion order (Python dicts
iterate in insertion order); `is_initialized` and `security_events` as in
the source. -/
structure SecurityManager where
  users : List (String × User)
  is_initialized : Bool
  security_events : List SecurityEvent
deriving Repr, DecidableEq

/-- A fresh `SecurityManager()`. -/
def SecurityManager.new : SecurityManager :=
  { users := [], is_initialized := false, security_events := [] }

/-- `SecurityManager._log_security_event`: builds the event dict (with
`datetime.now().isoformat()` passed in as the oracle `ts`) and appends it
to `security_events`. -/
def log_security_event (sm : SecurityManager) (ts : String)
    (event_type : String) (details : List (String × String)) : SecurityManager :=
  { sm with security_events :=
      sm.security_events ++ [{ timestamp := ts, event_type := event_type, details := details }] }

/-- The lookup loop of `authenticate_user`: the first `u` in
`self.users.values()` with `u.username == username and u.is_active`. -/
def findActive (users : List (String × User)) (username : String) : Option User :=
  (users.map Prod.snd).find? (fun u => u.username == username && u.is_active)

/-- `SecurityManager.authenticate_user`.  Oracles: `tokenHex` for
`secrets.token_hex(16)` and `ts` for the event timestamp.  Returns the
result (`Optional[str]`) together with the updated manager state. -/
def authenticate_user (kdf : String → List Nat → Nat → List Nat)
    (sm : SecurityManager) (username password : String)
    (tokenHex ts : String) : Option String × SecurityManager :=
  match findActive sm.users username with
  | none => (none, sm)
  | some user =>
      if user.password_hash != "" && verify_password kdf user.password_hash password then
        let token := "token_" ++ tokenHex
        (some token,
         log_security_event sm ts "user_authenticated"
           [("username", username), ("token", pySlice token 10)])
      else (none, sm)

/-- `SecurityManager._create_default_admin`.  Oracles: `defaultPassword`
for `secrets.token_urlsafe(16)`, `salt` for the salt drawn inside
`_hash_password`, `now` for `datetime.now()`.  Inserts the admin user
keyed by its id only when the store is empty; emits no security event
(the source only writes to the logger here). -/
def create_default_admin (kdf : String → List Nat → Nat → List Nat)
    (sm : SecurityManager) (defaultPassword : String) (salt : List Nat)
    (now : String) : SecurityManager :=
  if sm.users.isEmpty then
    let admin_user : User :=
      { id := "admin_001", username := "admin", email := "admin@mynativeops.ai"
        created_at := now, is_active := true
        password_hash := hash_password kdf defaultPassword salt }
    { sm with users := sm.users ++ [(admin_user.id, admin_user)] }
  else sm

/-- `SecurityManager.initialize` (the spec's `bootstrap()`): early return
when already initialized, otherwise create the default admin and set the
flag. -/
def bootstrap (kdf : String → List Nat → Nat → List Nat)
    (sm : SecurityManager) (defaultPassword : String) (salt : List Nat)
    (now : String) : SecurityManager :=
  if sm.is_initialized then sm
  else
    let sm1 := create_default_admin kdf sm defaultPassword salt now
    { sm1 with is_initialized := true }

/-- A sequence of `authenticate_user` calls (each with its own username,
password and oracle inputs), returning the final state and the number of
calls that returned a token. -/
def runAuths (kdf : String → List Nat → Nat → List Nat)
    (sm : SecurityManager) :
    List (String × String × String × String) → SecurityManager × Nat
  | [] => (sm, 0)
  | (u, p, th, ts) :: rest =>
      let r := authenticate_user kdf sm u p th ts
      let tail := runAuths kdf r.2 rest
      (tail.1, (if r.1.isSome then 1 else 0) + tail.2)

/-- A concrete key-derivation function used for evaluating the model on
concrete inputs: the digest is the salt itself. -/
def kdfDemo : String → List Nat → Nat → List Nat := fun _ salt _ => salt

/-- A character predicate matching the lowercase hex alphabet produced by
`secrets.token_hex` / `bytes.hex`. -/
def isLowerHex (c : Char) : Bool :=
  (48 ≤ c.toNat && c.toNat ≤ 57) || (97 ≤ c.toNat && c.toNat ≤ 102)

/-- Number of `user_authenticated` events currently in the audit log. -/
def countAuthEvents (sm : SecurityManager) : Nat :=
  sm.security_events.countP (fun e => e.event_type == "user_authenticated")

theorem data_append (a b : String) : (a ++ b).data = a.data ++ b.data := rfl

theorem toList_eq_data (s : String) : s.toList = s.data := rfl

theorem length_eq_data_length (s : String) : s.length = s.data.length := rfl

theorem hexVal_hexDigit {n : Nat} (h : n < 16) : hexVal (hexDigit n) = some n := by
  interval_cases n <;> decide

theorem hexDigit_ne_colon {n : Nat} (h : n < 16) : hexDigit n ≠ ':' := by
  interval_cases n <;> decide

theorem hexDigit_not_ws {n : Nat} (h : n < 16) :
    isAsciiWhitespace (hexDigit n) = false := by
  interval_cases n <;> decide

theorem colon_not_mem_hexEncode {bs : List Nat} (h : ∀ b ∈ bs, b < 256) :
    ':' ∉ hexEncode bs := by
  induction bs with
  | nil => simp [hexEncode]
  | cons b bs ih =>
      have hb : b < 256 := h b (List.mem_cons_self _ _)
      have h1 : b / 16 < 16 := Nat.div_lt_of_lt_mul hb
      have h2 : b % 16 < 16 := Nat.mod_lt _ (by norm_num)
      have ih' := ih (fun x hx => h x (List.mem_cons_of_mem _ hx))
      simp only [hexEncode, List.flatMap_cons] at *
      intro hmem
      rcases List.mem_append.mp hmem with hl | hr
      · simp only [List.mem_cons, List.not_mem_nil, or_false] at hl
        rcases hl with h | h
        · exact hexDigit_ne_colon h1 h.symm
        · exact hexDigit_ne_colon h2 h.symm
      · exact ih' hr

theorem fromhex_hexEncode {bs : List Nat} (h : ∀ b ∈ bs, b < 256) :
    fromhex (hexEncode bs) = some bs := by
  induction bs with
  | nil => rfl
  | cons b bs ih =>
      have hb : b < 256 := h b (List.mem_cons_self _ _)
      have h1 : b / 16 < 16 := Nat.div_lt_of_lt_mul hb
      have h2 : b % 16 < 16 := Nat.mod_lt _ (by norm_num)
      have ih' := ih (fun x hx => h x (List.mem_cons_of_mem _ hx))
      simp only [hexEncode, List.flatMap_cons, List.cons_append, List.nil_append]
      show fromhex (hexDigit (b / 16) :: hexDigit (b % 16) :: hexEncode bs) = some (b :: bs)
      simp [fromhex, hexDigit_not_ws h1, hexVal_hexDigit h1, hexVal_hexDigit h2, ih',
        Nat.div_add_mod]

theorem pySplit_no_sep {sep : Char} {l : List Char} (h : sep ∉ l) :
    pySplit sep l = [l] := by
  induction l with
  | nil => rfl
  | cons c cs ih =>
      have hc : c ≠ sep := fun hcs => h (hcs ▸ List.mem_cons_self _ _)
      have ih' := ih (fun hm => h (List.mem_cons_of_mem _ hm))
      simp [pySplit, hc, ih']

theorem pySplit_append_sep {sep : Char} {a b : List Char} (ha : sep ∉ a) :
    pySplit sep (a ++ sep :: b) = a :: pySplit sep b := by
  induction a with
  | nil => simp [pySplit]
  | cons c cs ih =>
      have hc : c ≠ sep := fun hcs => ha (hcs ▸ List.mem_cons_self _ _)
      have ih' := ih (fun hm => ha (List.mem_cons_of_mem _ hm))
      simp [pySplit, hc, ih']

theorem pySplit_two {sep : Char} {a b : List Char} (ha : sep ∉ a) (hb : sep ∉ b) :
    pySplit sep (a ++ sep :: b) = [a, b] := by
  rw [pySplit_append_sep ha, pySplit_no_sep hb]

theorem hash_password_toList (kdf : String → List Nat → Nat → List Nat)
    (p : String) (salt : List Nat) :
    (hash_password kdf p salt).toList
      = hexEncode salt ++ ':' :: hexEncode (kdf p salt 100000) := by
  simp [hash_password, toList_eq_data, data_append]

theorem hexEncode_length (bs : List Nat) : (hexEncode bs).length = 2 * bs.length := by
  induction bs with
  | nil => rfl
  | cons b bs ih =>
      simp only [hexEncode, List.flatMap_cons] at *
      simp [ih, List.length_cons]
      ring

/-- C1: for every plaintext credential `p` (and any salt of well-formed
bytes drawn by `secrets.token_bytes`, and any digest the key-derivation
function produces), verifying `p` against the record produced by hashing
`p` succeeds: `_verify_password(_hash_password(p), p)` is `True`. -/
theorem verify_hash_roundtrip (kdf : String → List Nat → Nat → List Nat)
    (p : String) (salt : List Nat)
    (hs : ∀ b ∈ salt, b < 256) (hd : ∀ b ∈ kdf p salt 100000, b < 256) :
    verify_password kdf (hash_password kdf p salt) p = true := by
  have hsplit : pySplit ':' (hash_password kdf p salt).toList
      = [hexEncode salt, hexEncode (kdf p salt 100000)] := by
    rw [hash_password_toList]
    exact pySplit_two (colon_not_mem_hexEncode hs) (colon_not_mem_hexEncode hd)
  unfold verify_password
  rw [hsplit]
  simp [fromhex_hexEncode hs, fromhex_hexEncode hd]

theorem verify_hash_roundtrip_witness :
    (∀ b ∈ ([0, 255] : List Nat), b < 256)
    ∧ verify_password kdfDemo (hash_password kdfDemo "pw" [0, 255]) "pw" = true :=
  ⟨by decide, verify_hash_roundtrip kdfDemo "pw" [0, 255] (by decide) (by decide)⟩

/-- C4: `_verify_password` is total and fails closed: a malformed stored
record — wrong number of `:`-separated parts, or a part that does not
hex-decode — yields `false` (the source catches the corresponding
`ValueError`), never an uncaught exception (totality is by construction
in this embedding; the theorem shows the result is `false`). -/
theorem verify_fails_closed (kdf : String → List Nat → Nat → List Nat)
    (stored provided : String)
    (h : (pySplit ':' stored.toList).length ≠ 2
      ∨ ∃ part ∈ pySplit ':' stored.toList, fromhex part = none) :
    verify_password kdf stored provided = false := by
  unfold verify_password
  rcases hp : pySplit ':' stored.toList with _ | ⟨a, _ | ⟨b, _ | ⟨c, t⟩⟩⟩
  · rfl
  · rfl
  · rcases h with hlen | ⟨part, hpart, hnone⟩
    · exact absurd (by rw [hp]; rfl) hlen
    · rw [hp] at hpart
      have hab : fromhex a = none ∨ fromhex b = none := by
        simp only [List.mem_cons, List.not_mem_nil, or_false] at hpart
        rcases hpart with rfl | rfl
        · exact Or.inl hnone
        · exact Or.inr hnone
      rcases hab with hn | hn
      · cases hb : fromhex b <;> simp [hn, hb]
      · cases ha : fromhex a <;> simp [ha, hn]
  · rfl

theorem verify_fails_closed_witness :
    ((pySplit ':' "justonepart".toList).length ≠ 2
      ∨ ∃ part ∈ pySplit ':' "justonepart".toList, fromhex part = none)
    ∧ verify_password kdfDemo "justonepart" "pw" = false :=
  ⟨Or.inl (by decide),
   verify_fails_closed kdfDemo "justonepart" "pw" (Or.inl (by decide))⟩

/-- C5: `_hash_password` derives the digest with exactly 100000
iterations of the key-derivation function over the supplied 32-byte
(256-bit) salt, and returns the record `hex(salt) ++ ":" ++ hex(digest)`
whose delimiter `:` occurs in neither hex component, so parsing the
record recovers the salt and the digest exactly; the hex-encoded 32-byte
salt occupies 64 characters. -/
theorem hash_password_record (kdf : String → List Nat → Nat → List Nat)
    (p : String) (salt : List Nat) (hlen : salt.length = 32)
    (hs : ∀ b ∈ salt, b < 256) (hd : ∀ b ∈ kdf p salt 100000, b < 256) :
    (hash_password kdf p salt).toList
        = hexEncode salt ++ ':' :: hexEncode (kdf p salt 100000)
    ∧ ':' ∉ hexEncode salt
    ∧ ':' ∉ hexEncode (kdf p salt 100000)
    ∧ pySplit ':' (hash_password kdf p salt).toList
        = [hexEncode salt, hexEncode (kdf p salt 100000)]
    ∧ fromhex (hexEncode salt) = some salt
    ∧ fromhex (hexEncode (kdf p salt 100000)) = some (kdf p salt 100000)
    ∧ (hexEncode salt).length = 64 := by
  refine ⟨hash_password_toList kdf p salt, colon_not_mem_hexEncode hs,
    colon_not_mem_hexEncode hd, ?_, fromhex_hexEncode hs, fromhex_hexEncode hd, ?_⟩
  · rw [hash_password_toList]
    exact pySplit_two (colon_not_mem_hexEncode hs) (colon_not_mem_hexEncode hd)
  · rw [hexEncode_length, hlen]

theorem hash_password_record_witness :
    (List.replicate 32 (0 : Nat)).length = 32
    ∧ pySplit ':' (hash_password kdfDemo "pw" (List.replicate 32 0)).toList
        = [hexEncode (List.replicate 32 0),
           hexEncode (kdfDemo "pw" (List.replicate 32 0) 100000)] :=
  ⟨by decide,
   (hash_password_record kdfDemo "pw" (List.replicate 32 0)
      (by decide) (by decide) (by decide)).2.2.2.1⟩

theorem findActive_none {users : List (String × User)} {username : String}
    (h : ∀ pr ∈ users, pr.2.username = username → pr.2.is_active = false) :
    findActive users username = none := by
  unfold findActive
  rw [List.find?_eq_none]
  intro u hu
  rcases List.mem_map.mp hu with ⟨pr, hpr, rfl⟩
  simp only [Bool.and_eq_true, beq_iff_eq, not_and]
  intro h1
  rw [h pr hpr h1]
  simp

/-- C2: `authenticate_user` returns the same `(none, unchanged state)`
result in all four failure cases — no active user with the username
(covering unknown usernames and empty input), a username whose matching
users are all inactive, a found user with an empty stored credential
digest, and a found user whose credential fails verification.  The
embedding is a total function, so no input raises. -/
theorem authenticate_uniform_failure (kdf : String → List Nat → Nat → List Nat)
    (sm : SecurityManager) (username password tokenHex ts : String) :
    (findActive sm.users username = none →
      authenticate_user kdf sm username password tokenHex ts = (none, sm))
    ∧ (∀ u, findActive sm.users username = some u → u.password_hash = "" →
      authenticate_user kdf sm username password tokenHex ts = (none, sm))
    ∧ (∀ u, findActive sm.users username = some u →
      verify_password kdf u.password_hash password = false →
      authenticate_user kdf sm username password tokenHex ts = (none, sm))
    ∧ ((∀ pr ∈ sm.users, pr.2.username = username → pr.2.is_active = false) →
      authenticate_user kdf sm username password tokenHex ts = (none, sm)) := by
  refine ⟨?_, ?_, ?_, ?_⟩
  · intro h
    unfold authenticate_user
    rw [h]
  · intro u hu he
    unfold authenticate_user
    rw [hu]
    simp [he]
  · intro u hu hv
    unfold authenticate_user
    rw [hu]
    simp [hv]
  · intro h
    unfold authenticate_user
    rw [findActive_none h]

theorem authenticate_uniform_failure_witness :
    findActive SecurityManager.new.users "alice" = none
    ∧ authenticate_user kdfDemo SecurityManager.new "alice" "pw" "aa" "t0"
        = (none, SecurityManager.new) :=
  ⟨rfl,
   (authenticate_uniform_failure kdfDemo SecurityManager.new "alice" "pw" "aa" "t0").1 rfl⟩

/-- C3 counterexample: bootstrapping twice from a fresh empty manager
leaves the audit log EMPTY — `_create_default_admin` only writes to the
Python logger and never calls `_log_security_event` — so the log does
not hold exactly one provisioning audit event, contrary to the claim. -/
theorem bootstrap_twice_cex :
    (bootstrap kdfDemo
        (bootstrap kdfDemo SecurityManager.new "pw" (List.replicate 32 0) "t0")
        "pw" (List.replicate 32 0) "t1").security_events = []
    ∧ ¬ ((bootstrap kdfDemo
        (bootstrap kdfDemo SecurityManager.new "pw" (List.replicate 32 0) "t0")
        "pw" (List.replicate 32 0) "t1").security_events.length = 1) := by
  constructor <;> decide

/-- C3 (amended): calling `initialize` twice starting from an empty,
uninitialized manager leaves the store with exactly one identity and the
audit log unchanged (no provisioning audit event is emitted); a call
while already initialized changes nothing. -/
theorem bootstrap_twice_amended (kdf : String → List Nat → Nat → List Nat)
    (sm : SecurityManager) (pw1 pw2 : String) (s1 s2 : List Nat) (t1 t2 : String)
    (hu : sm.users = []) (hi : sm.is_initialized = false) :
    (bootstrap kdf (bootstrap kdf sm pw1 s1 t1) pw2 s2 t2).users.length = 1
    ∧ (bootstrap kdf (bootstrap kdf sm pw1 s1 t1) pw2 s2 t2).security_events
        = sm.security_events
    ∧ (∀ sm' : SecurityManager, sm'.is_initialized = true →
        bootstrap kdf sm' pw2 s2 t2 = sm') := by
  have hstep : ∀ smx : SecurityManager, smx.is_initialized = true →
      bootstrap kdf smx pw2 s2 t2 = smx := by
    intro smx hx
    unfold bootstrap
    simp [hx]
  have h1i : (bootstrap kdf sm pw1 s1 t1).is_initialized = true := by
    unfold bootstrap
    simp [hi]
  have h1u : (bootstrap kdf sm pw1 s1 t1).users.length = 1 := by
    unfold bootstrap create_default_admin
    simp [hi, hu]
  have h1e : (bootstrap kdf sm pw1 s1 t1).security_events = sm.security_events := by
    unfold bootstrap create_default_admin
    simp [hi, hu]
  refine ⟨?_, ?_, hstep⟩
  · rw [hstep _ h1i]
    exact h1u
  · rw [hstep _ h1i]
    exact h1e

theorem bootstrap_twice_amended_witness :
    (SecurityManager.new.users = [] ∧ SecurityManager.new.is_initialized = false)
    ∧ (bootstrap kdfDemo
        (bootstrap kdfDemo SecurityManager.new "pw" (List.replicate 32 0) "t0")
        "pw" (List.replicate 32 0) "t1").users.length = 1 :=
  ⟨⟨rfl, rfl⟩,
   (bootstrap_twice_amended kdfDemo SecurityManager.new "pw" "pw"
      (List.replicate 32 0) (List.replicate 32 0) "t0" "t1" rfl rfl).1⟩

/-- C6: every operation of the manager — `initialize`,
`authenticate_user`, `_log_security_event` — leaves the audit log equal
to the old log with (possibly empty) new events appended at the end;
nothing is removed or modified. -/
theorem audit_log_monotone (kdf : String → List Nat → Nat → List Nat)
    (sm : SecurityManager) (pw : String) (salt : List Nat)
    (now u p th ts et : String) (d : List (String × String)) :
    (∃ tl, (bootstrap kdf sm pw salt now).security_events
        = sm.security_events ++ tl)
    ∧ (∃ tl, (authenticate_user kdf sm u p th ts).2.security_events
        = sm.security_events ++ tl)
    ∧ (∃ tl, (log_security_event sm ts et d).security_events
        = sm.security_events ++ tl) := by
  refine ⟨?_, ?_, ⟨_, rfl⟩⟩
  · by_cases hi : sm.is_initialized
    · exact ⟨[], by unfold bootstrap; simp [hi]⟩
    · by_cases he : sm.users.isEmpty
      · exact ⟨[], by unfold bootstrap create_default_admin; simp [hi, he]⟩
      · exact ⟨[], by unfold bootstrap create_default_admin; simp [hi, he]⟩
  · cases hf : findActive sm.users u with
    | none => exact ⟨[], by unfold authenticate_user; rw [hf]; simp⟩
    | some usr =>
        by_cases hc : (usr.password_hash != ""
            && verify_password kdf usr.password_hash p) = true
        · refine ⟨[SecurityEvent.mk ts "user_authenticated"
            [("username", u), ("token", pySlice ("token_" ++ th) 10)]], ?_⟩
          unfold authenticate_user
          rw [hf]
          simp [hc, log_security_event]
        · exact ⟨[], by unfold authenticate_user; rw [hf]; simp [hc]⟩

theorem auth_success_shape (kdf : String → List Nat → Nat → List Nat)
    (sm : SecurityManager) (username password tokenHex ts token : String)
    (sm' : SecurityManager)
    (h : authenticate_user kdf sm username password tokenHex ts = (some token, sm')) :
    token = "token_" ++ tokenHex
    ∧ sm' = log_security_event sm ts "user_authenticated"
        [("username", username), ("token", pySlice ("token_" ++ tokenHex) 10)] := by
  unfold authenticate_user at h
  cases hf : findActive sm.users username with
  | none =>
      rw [hf] at h
      exact absurd h (by simp)
  | some usr =>
      rw [hf] at h
      by_cases hc : (usr.password_hash != ""
          && verify_password kdf usr.password_hash password) = true
      · simp only [hc, if_true, Prod.mk.injEq, Option.some.injEq] at h
        exact ⟨h.1.symm, h.2.symm⟩
      · simp [hc] at h

theorem auth_step (kdf : String → List Nat → Nat → List Nat)
    (sm : SecurityManager) (u p th ts : String) :
    authenticate_user kdf sm u p th ts = (none, sm)
    ∨ ((authenticate_user kdf sm u p th ts).1.isSome = true
       ∧ (authenticate_user kdf sm u p th ts).2.security_events
           = sm.security_events ++ [SecurityEvent.mk ts "user_authenticated"
               [("username", u), ("token", pySlice ("token_" ++ th) 10)]]
       ∧ (authenticate_user kdf sm u p th ts).2.users = sm.users
       ∧ (authenticate_user kdf sm u p th ts).2.is_initialized = sm.is_initialized) := by
  unfold authenticate_user
  cases hf : findActive sm.users u with
  | none => left; rfl
  | some usr =>
      by_cases hc : (usr.password_hash != ""
          && verify_password kdf usr.password_hash p) = true
      · right
        simp [hc, log_security_event]
      · left
        simp [hc]

/-- C7: a successful `authenticate_user` appends exactly one
`user_authenticated` event whose details are the username and the
10-character prefix `token[:10]` of the 38-character token — never the
full token; and every value in the event's details is either the
username or that prefix, so no string distinct from both (in particular
the plaintext password or any salt/digest component) occurs in it. -/
theorem auth_success_audit (kdf : String → List Nat → Nat → List Nat)
    (sm : SecurityManager) (username password tokenHex ts token : String)
    (sm' : SecurityManager)
    (h : authenticate_user kdf sm username password tokenHex ts = (some token, sm'))
    (hlen : tokenHex.length = 32) :
    ∃ ev : SecurityEvent,
      sm'.security_events = sm.security_events ++ [ev]
      ∧ ev.event_type = "user_authenticated"
      ∧ ev.details = [("username", username), ("token", pySlice token 10)]
      ∧ pySlice token 10 ≠ token
      ∧ (∀ s : String, s ≠ username → s ≠ pySlice token 10 →
          ∀ kv ∈ ev.details, kv.2 ≠ s) := by
  obtain ⟨htok, hsm⟩ :=
    auth_success_shape kdf sm username password tokenHex ts token sm' h
  subst htok
  refine ⟨SecurityEvent.mk ts "user_authenticated"
      [("username", username), ("token", pySlice ("token_" ++ tokenHex) 10)],
    by rw [hsm]; rfl, rfl, rfl, ?_, ?_⟩
  · intro he
    have hlist : ("token_" ++ tokenHex).toList.take 10 = ("token_" ++ tokenHex).toList :=
      congrArg String.toList he
    have hlen' : ("token_" ++ tokenHex).toList.length = 38 := by
      rw [toList_eq_data, data_append, List.length_append]
      have h32 : tokenHex.data.length = 32 := by
        rw [← length_eq_data_length]
        exact hlen
      have h6 : ("token_" : String).data.length = 6 := rfl
      rw [h32, h6]
    have hmin := congrArg List.length hlist
    rw [List.length_take, hlen'] at hmin
    norm_num at hmin
  · intro s hs1 hs2 kv hkv
    simp only [List.mem_cons, List.not_mem_nil, or_false] at hkv
    rcases hkv with rfl | rfl
    · exact fun hh => hs1 hh.symm
    · exact fun hh => hs2 hh.symm

theorem auth_success_audit_witness :
    pySlice "token_0123456789abcdef0123456789abcdef" 10
      ≠ "token_0123456789abcdef0123456789abcdef" := by
  obtain ⟨ev, _, _, _, hne, _⟩ :=
    auth_success_audit kdfDemo
      ⟨[("u1", ⟨"u1", "alice", "a@b", "t", true, "00:00"⟩)], true, []⟩
      "alice" "pw" "0123456789abcdef0123456789abcdef" "ts"
      "token_0123456789abcdef0123456789abcdef"
      ⟨[("u1", ⟨"u1", "alice", "a@b", "t", true, "00:00"⟩)], true,
       [⟨"ts", "user_authenticated",
         [("username", "alice"), ("token", "token_0123")]⟩]⟩
      (by decide) (by decide)
  exact hne

/-- C8: over any sequence of `authenticate_user` calls, the number of
`user_authenticated` events in the audit log grows by exactly the number
of calls that returned a token; and a failed call returns the manager
state unchanged (identity store, audit log and initialization flag). -/
theorem auth_count_frame (kdf : String → List Nat → Nat → List Nat)
    (sm : SecurityManager)
    (calls : List (String × String × String × String)) :
    countAuthEvents (runAuths kdf sm calls).1
      = countAuthEvents sm + (runAuths kdf sm calls).2
    ∧ (∀ u p th ts, (authenticate_user kdf sm u p th ts).1 = none →
        (authenticate_user kdf sm u p th ts).2 = sm) := by
  constructor
  · induction calls generalizing sm with
    | nil => simp [runAuths]
    | cons c rest ih =>
        obtain ⟨u, p, th, ts⟩ := c
        simp only [runAuths]
        rcases auth_step kdf sm u p th ts with hnone | ⟨hsome, hev, _, _⟩
        · rw [hnone]
          simp only [hnone, Option.isSome_none]
          rw [ih sm]
          simp
        · have hcount : countAuthEvents (authenticate_user kdf sm u p th ts).2
              = countAuthEvents sm + 1 := by
            unfold countAuthEvents
            rw [hev]
            simp [List.countP_append, List.countP_cons]
          rw [ih ((authenticate_user kdf sm u p th ts).2), hcount, hsome]
          simp
          omega
  · intro u p th ts hnone
    rcases auth_step kdf sm u p th ts with h | ⟨hsome, _⟩
    · rw [h]
    · rw [hnone] at hsome
      exact absurd hsome (by simp)

theorem auth_count_frame_witness :
    (authenticate_user kdfDemo SecurityManager.new "u" "p" "t" "s").1 = none
    ∧ (authenticate_user kdfDemo SecurityManager.new "u" "p" "t" "s").2
        = SecurityManager.new :=
  ⟨rfl, (auth_count_frame kdfDemo SecurityManager.new []).2 "u" "p" "t" "s" rfl⟩

/-- C10: every token returned by a successful `authenticate_user` is the
6-character literal `token_` followed by the 32 lowercase hex characters
of `secrets.token_hex(16)` — 38 characters in all — and the audited
fragment `token[:10]` is the constant prefix plus exactly the first 4
hex characters. -/
theorem token_format (kdf : String → List Nat → Nat → List Nat)
    (sm : SecurityManager) (username password tokenHex ts token : String)
    (sm' : SecurityManager)
    (h : authenticate_user kdf sm username password tokenHex ts = (some token, sm'))
    (hlen : tokenHex.length = 32)
    (hhex : ∀ c ∈ tokenHex.toList, isLowerHex c = true) :
    token.toList = "token_".toList ++ tokenHex.toList
    ∧ token.length = 38
    ∧ (token.toList.drop 6).length = 32
    ∧ (∀ c ∈ token.toList.drop 6, isLowerHex c = true)
    ∧ pySlice token 10 = String.mk ("token_".toList ++ tokenHex.toList.take 4) := by
  obtain ⟨htok, _⟩ :=
    auth_success_shape kdf sm username password tokenHex ts token sm' h
  subst htok
  have h32 : tokenHex.data.length = 32 := by
    rw [← length_eq_data_length]
    exact hlen
  have hdata : ("token_" ++ tokenHex).toList = "token_".toList ++ tokenHex.toList := by
    rw [toList_eq_data, data_append]
    rfl
  have hdrop : ("token_".toList ++ tokenHex.toList).drop 6 = tokenHex.toList := by
    have h6 : ("token_".toList).length = 6 := rfl
    rw [← h6, List.drop_left]
  refine ⟨hdata, ?_, ?_, ?_, ?_⟩
  · rw [length_eq_data_length, data_append, List.length_append, h32]
    have h6 : ("token_" : String).data.length = 6 := rfl
    rw [h6]
  · rw [hdata, hdrop, toList_eq_data, h32]
  · rw [hdata, hdrop]
    exact hhex
  · unfold pySlice
    rw [hdata]
    have h10 : (10 : Nat) = ("token_".toList).length + 4 := rfl
    rw [h10, List.take_append]

theorem token_format_witness :
    ("token_0123456789abcdef0123456789abcdef" : String).length = 38 := by
  obtain ⟨_, h38, _⟩ :=
    token_format kdfDemo
      ⟨[("u1", ⟨"u1", "alice", "a@b", "t", true, "00:00"⟩)], true, []⟩
      "alice" "pw" "0123456789abcdef0123456789abcdef" "ts"
      "token_0123456789abcdef0123456789abcdef"
      ⟨[("u1", ⟨"u1", "alice", "a@b", "t", true, "00:00"⟩)], true,
       [⟨"ts", "user_authenticated",
         [("username", "alice"), ("token", "token_0123")]⟩]⟩
      (by decide) (by decide) (by decide)
  exact h38
